import Mathlib

set_option maxRecDepth 8000

/-!
Shallow embedding of the zmail mailbox-lifecycle subsystem.

Source files embedded here:
- `worker/src/utils.ts` (address validation, random-address generator, expiry helper);
- `worker/src/name-generator.ts` (English-name address generator) together with
  `worker/src/data/names.ts` (the name pool);
- `worker/src/database.ts` (mailbox store: create / get / convert / delete / cleanup),
  as given in the permanent-mailbox design document;
- `worker/src/routes.ts` (the HTTP handlers for mailbox creation, conversion and deletion).

Conventions of the embedding:
- JavaScript strings are Lean `String`s; `s.length` in JS counts UTF-16 code units, which
  `jsLength` reproduces (all data in the claims is ASCII, where the two coincide).
- `Math.random()`-driven choices are supplied by explicit oracle structures; a theorem
  quantified over all oracles covers every value the impure generator can return.
- The D1 `mailboxes` table is a `List Mailbox`; each SQL statement becomes the
  corresponding pure list transformation.
- `getCurrentTimestamp()` is a `now : Nat` parameter, one per request.
-/

/-- Lowercase ASCII letter test. -/
def isLowerAlpha (c : Char) : Bool := 'a' ≤ c && c ≤ 'z'

/-- Uppercase ASCII letter test. -/
def isUpperAlpha (c : Char) : Bool := 'A' ≤ c && c ≤ 'Z'

/-- ASCII decimal digit test. -/
def isDigitChar (c : Char) : Bool := '0' ≤ c && c ≤ '9'

/-- ASCII lowering of a single character, as JavaScript `toLowerCase` acts on A-Z. -/
def toLowerChar (c : Char) : Char :=
  if isUpperAlpha c then Char.ofNat (c.toNat + 32) else c

/-- JavaScript `String.prototype.toLowerCase` restricted to its ASCII action. -/
def jsToLower (s : String) : String := ⟨s.data.map toLowerChar⟩

/-- JavaScript `String.prototype.length`: the number of UTF-16 code units. -/
def jsLength (s : String) : Nat :=
  (s.data.map (fun c => if c.toNat < 0x10000 then 1 else 2)).sum

/-- Error kinds of `validateCustomAddress` in `worker/src/utils.ts`; the source reports
them as the three distinct human-readable messages (length below 3, length above 30,
character outside the allowed class). -/
inductive AddressValidationError
  | tooShort
  | tooLong
  | invalidCharacters
deriving DecidableEq, Repr

/-- Result shape of `validateCustomAddress`: `{ valid: boolean; error?: string }`. -/
structure AddressValidationResult where
  valid : Bool
  error : Option AddressValidationError
deriving DecidableEq, Repr

/-- Character class of the regex `/^[a-zA-Z0-9._-]+$/` in `validateCustomAddress`. -/
def isValidAddressChar (c : Char) : Bool :=
  isLowerAlpha c || isUpperAlpha c || isDigitChar c || c == '.' || c == '_' || c == '-'

/-- Test of the regex `/^[a-zA-Z0-9._-]+$/`: nonempty and every character in the class. -/
def validCharsTest (s : String) : Bool :=
  !s.data.isEmpty && s.data.all isValidAddressChar

/-- `validateCustomAddress` from `worker/src/utils.ts`: length below 3, then length
above 30, then the character-class regex, short-circuiting in that order. -/
def validateCustomAddress (address : String) : AddressValidationResult :=
  if jsLength address < 3 then
    { valid := false, error := some .tooShort }
  else if jsLength address > 30 then
    { valid := false, error := some .tooLong }
  else if !validCharsTest address then
    { valid := false, error := some .invalidCharacters }
  else
    { valid := true, error := none }

/-- Sentinel value `PERMANENT_MAILBOX_SENTINEL = 9999999999` for permanent mailboxes. -/
def PERMANENT_MAILBOX_SENTINEL : Nat := 9999999999

/-- `isPermanentMailbox` from the design document: a mailbox is permanent iff its
`expires_at` equals the sentinel. -/
def isPermanentMailbox (expiresAt : Nat) : Bool :=
  expiresAt == PERMANENT_MAILBOX_SENTINEL

/-- Address types of mailboxes (`types.ts`). -/
inductive AddressType
  | name
  | random
  | custom
deriving DecidableEq, Repr

/-- `isPermanentAllowedForAddressType`: permanence is allowed only for name/custom. -/
def isPermanentAllowedForAddressType (addressType : AddressType) : Bool :=
  addressType == .name || addressType == .custom

/-- `calculateMailboxExpiry(hours, isPermanent)`: the sentinel when permanent,
otherwise `getCurrentTimestamp() + hours * 60 * 60`. -/
def calculateMailboxExpiry (now : Nat) (hours : Nat) (isPermanent : Bool) : Nat :=
  if isPermanent then PERMANENT_MAILBOX_SENTINEL
  else now + hours * 60 * 60

/-- First-name pool of `worker/src/data/names.ts` (`NAME_POOL.firstNames`). -/
def NAME_POOL_firstNames : List String :=
  ["james", "john", "robert", "michael", "william", "david", "richard", "joseph",
   "thomas", "charles", "christopher", "daniel", "matthew", "anthony", "mark",
   "donald", "steven", "paul", "andrew", "joshua", "kenneth", "kevin", "brian",
   "george", "timothy", "ronald", "edward", "jason", "jeffrey", "ryan",
   "jacob", "gary", "nicholas", "eric", "jonathan", "stephen", "larry", "justin",
   "scott", "brandon", "benjamin", "samuel", "raymond", "gregory", "frank",
   "alexander", "patrick", "jack", "dennis", "jerry",
   "mary", "patricia", "jennifer", "linda", "elizabeth", "barbara", "susan",
   "jessica", "sarah", "karen", "lisa", "nancy", "betty", "margaret", "sandra",
   "ashley", "kimberly", "emily", "donna", "michelle", "dorothy", "carol",
   "amanda", "melissa", "deborah", "stephanie", "rebecca", "sharon", "laura",
   "cynthia", "kathleen", "amy", "angela", "shirley", "anna", "brenda",
   "pamela", "emma", "nicole", "helen", "samantha", "katherine", "christine",
   "debra", "rachel", "carolyn", "janet", "catherine", "maria", "heather",
   "alex", "taylor", "jordan", "morgan", "casey", "riley", "jamie", "avery",
   "quinn", "parker", "blake", "drew", "cameron", "logan", "dylan", "hayden",
   "peyton", "reese", "sage", "skyler", "charlie", "finley", "harper", "kendall",
   "madison", "mason", "noah", "oliver", "sophia", "liam", "ethan", "lucas",
   "mia", "ella", "grace", "chloe", "lily", "zoe", "hannah", "natalie",
   "victoria", "claire", "audrey", "leah", "savannah", "brooklyn", "violet"]

/-- Last-name pool of `worker/src/data/names.ts` (`NAME_POOL.lastNames`). -/
def NAME_POOL_lastNames : List String :=
  ["smith", "johnson", "williams", "brown", "jones", "garcia", "miller",
   "davis", "rodriguez", "martinez", "hernandez", "lopez", "gonzalez",
   "wilson", "anderson", "thomas", "taylor", "moore", "jackson", "martin",
   "lee", "perez", "thompson", "white", "harris", "sanchez", "clark",
   "ramirez", "lewis", "robinson", "walker", "young", "allen", "king",
   "wright", "scott", "torres", "nguyen", "hill", "flores", "green",
   "adams", "nelson", "baker", "hall", "rivera", "campbell", "mitchell",
   "carter", "roberts", "turner", "phillips", "evans", "parker", "edwards",
   "collins", "stewart", "morris", "murphy", "cook", "rogers", "morgan",
   "peterson", "cooper", "reed", "bailey", "bell", "gomez", "kelly"]

/-- Minimum length constraint `MIN_ADDRESS_LENGTH` in `name-generator.ts`. -/
def MIN_ADDRESS_LENGTH : Nat := 6

/-- Maximum length constraint `MAX_ADDRESS_LENGTH` in `name-generator.ts`. -/
def MAX_ADDRESS_LENGTH : Nat := 20

/-- Address format variants of `name-generator.ts`. -/
inductive AddressFormat
  | dot
  | underscore
  | plain
  | withDigits
deriving DecidableEq, Repr

/-- Table of the ten decimal digit characters a `Math.floor(Math.random() * 10)`
call can produce. -/
def digitChars : List Char := ['0', '1', '2', '3', '4', '5', '6', '7', '8', '9']

/-- One random decimal digit character: `Math.floor(Math.random() * 10).toString()`
with the random draw supplied as `d` (reduced mod 10, the range of the draw). -/
def digitToChar (d : Nat) : Char := digitChars.getD (d % 10) '0'

/-- `generateRandomDigits` from `name-generator.ts`: 2 or 3 random digits, the count
chosen by `Math.random() < 0.5` (`coin`) and the digit draws supplied by `vals`. -/
def generateRandomDigits (coin : Bool) (vals : Nat → Nat) : String :=
  ⟨(List.range (if coin then 2 else 3)).map (fun i => digitToChar (vals i))⟩

/-- `formatNameAddress` from `name-generator.ts`. The internal `generateRandomDigits()`
call of the `withDigits` branch is supplied as the pre-generated string `digits`. -/
def formatNameAddress (firstName lastName : String) (format : AddressFormat)
    (digits : String) : String :=
  let first := jsToLower firstName
  let last := jsToLower lastName
  match format with
  | .dot => first ++ "." ++ last
  | .underscore => first ++ "_" ++ last
  | .plain => first ++ last
  | .withDigits => first ++ last ++ digits

/-- `isValidLength` from `name-generator.ts`. -/
def isValidLength (address : String) : Bool :=
  MIN_ADDRESS_LENGTH ≤ jsLength address && jsLength address ≤ MAX_ADDRESS_LENGTH

/-- Randomness oracle for `generateNameAddress`: the values of every `Math.random()`
draw the generator can make, indexed by loop attempt. `digitCoin1`/`digitVals1` feed
the `generateRandomDigits` call inside the attempt's chosen format; `digitCoin2`/
`digitVals2` feed the one inside the too-short rescue; `fbFirstIdx`/`fbLastIdx` are
the draws of the final fallback. -/
structure NameGenOracle where
  firstIdx : Nat → Nat
  lastIdx : Nat → Nat
  fmt : Nat → AddressFormat
  digitCoin1 : Nat → Bool
  digitVals1 : Nat → Nat → Nat
  digitCoin2 : Nat → Bool
  digitVals2 : Nat → Nat → Nat
  fbFirstIdx : Nat
  fbLastIdx : Nat

/-- Array indexing `pool[Math.floor(Math.random() * pool.length)]`: the draw lands in
`[0, pool.length)`, modelled by reducing an arbitrary draw mod the length. -/
def poolGet (pool : List String) (idx : Nat) : String :=
  pool.getD (idx % pool.length) ""

/-- JavaScript `list[idx] || dflt`: the element when the list is nonempty (pool entries
are nonempty strings, hence truthy), the default on an out-of-range/empty pick. -/
def jsIndexOr (l : List String) (idx : Nat) (dflt : String) : String :=
  let v := if l.isEmpty then "" else l.getD (idx % l.length) ""
  if v = "" then dflt else v

/-- One iteration of the `generateNameAddress` retry loop (attempt number `i`):
`some a` when the iteration returns address `a`, `none` when it falls through. -/
def nameGenAttempt (o : NameGenOracle) (i : Nat) : Option String :=
  let firstName := poolGet NAME_POOL_firstNames (o.firstIdx i)
  let lastName := poolGet NAME_POOL_lastNames (o.lastIdx i)
  let format := o.fmt i
  let address := formatNameAddress firstName lastName format
    (generateRandomDigits (o.digitCoin1 i) (o.digitVals1 i))
  if isValidLength address then some address
  else if jsLength address < MIN_ADDRESS_LENGTH then
    let addressWithDigits := formatNameAddress firstName lastName .withDigits
      (generateRandomDigits (o.digitCoin2 i) (o.digitVals2 i))
    if isValidLength addressWithDigits then some addressWithDigits else none
  else if jsLength address > MAX_ADDRESS_LENGTH then
    let plainAddress := formatNameAddress firstName lastName .plain ""
    if isValidLength plainAddress then some plainAddress else none
  else none

/-- Fallback of `generateNameAddress` past the attempt bound: a plain-format pick from
the pool entries of length at most 6, with `'john'`/`'doe'` as JS `||` defaults. -/
def nameGenFallback (o : NameGenOracle) : String :=
  let shortFirstNames := NAME_POOL_firstNames.filter (fun n => jsLength n ≤ 6)
  let shortLastNames := NAME_POOL_lastNames.filter (fun n => jsLength n ≤ 6)
  let firstName := jsIndexOr shortFirstNames o.fbFirstIdx "john"
  let lastName := jsIndexOr shortLastNames o.fbLastIdx "doe"
  formatNameAddress firstName lastName .plain ""

/-- The attempt loop of `generateNameAddress`, by remaining fuel; `i` is the attempt
index. -/
def generateNameAddressAux (o : NameGenOracle) : Nat → Nat → String
  | 0, _ => nameGenFallback o
  | fuel + 1, i =>
    match nameGenAttempt o i with
    | some a => a
    | none => generateNameAddressAux o fuel (i + 1)

/-- `generateNameAddress` from `name-generator.ts`: up to `maxAttempts = 50` loop
iterations, then the fallback. -/
def generateNameAddress (o : NameGenOracle) : String :=
  generateNameAddressAux o 50 0

/-- Character set of generated name addresses: lowercase letters, digits, dot,
underscore. -/
def nameCharOk (c : Char) : Bool :=
  isLowerAlpha c || isDigitChar c || c == '.' || c == '_'

def oracleAllZero : NameGenOracle :=
  { firstIdx := fun _ => 0, lastIdx := fun _ => 0, fmt := fun _ => .plain,
    digitCoin1 := fun _ => true, digitVals1 := fun _ _ => 0,
    digitCoin2 := fun _ => true, digitVals2 := fun _ _ => 0,
    fbFirstIdx := 0, fbLastIdx := 0 }

/-- A row of the `mailboxes` table (`types.ts` / the design document's schema).
`isPermanent` is never stored: it is recomputed from `expiresAt` (see
`Mailbox.isPermanent`). -/
structure Mailbox where
  id : Nat
  address : String
  addressType : AddressType
  createdAt : Nat
  expiresAt : Nat
  ipAddress : String
  lastAccessed : Nat
deriving DecidableEq, Repr

/-- The computed `isPermanent` field: always derived from `expires_at`. -/
def Mailbox.isPermanent (m : Mailbox) : Bool := isPermanentMailbox m.expiresAt

/-- The `mailboxes` table. -/
abbrev Store := List Mailbox

/-- Parameters of `createMailbox` (`CreateMailboxParams` in `types.ts`); the optional
`isPermanent?` field arrives already coerced by `!!params.isPermanent`. -/
structure CreateMailboxParams where
  address : String
  addressType : AddressType
  expiresInHours : Nat
  ipAddress : String
  isPermanent : Bool
deriving DecidableEq, Repr

/-- `createMailbox` from `database.ts`: gate the permanence request through
`isPermanentAllowedForAddressType`, compute `expires_at`, INSERT the row. `freshId`
stands for `generateId()`. Returns the created mailbox and the updated table. -/
def createMailbox (db : Store) (params : CreateMailboxParams) (now freshId : Nat) :
    Mailbox × Store :=
  let isPermanent := params.isPermanent && isPermanentAllowedForAddressType params.addressType
  let expiresAt := calculateMailboxExpiry now params.expiresInHours isPermanent
  let mailbox : Mailbox :=
    { id := freshId, address := params.address, addressType := params.addressType,
      createdAt := now, expiresAt := expiresAt, ipAddress := params.ipAddress,
      lastAccessed := now }
  (mailbox, (db : List Mailbox) ++ [mailbox])

/-- The WHERE clause of `getMailbox`:
`address = ? AND (expires_at > ? OR expires_at = ?)` with `?` = the requested address,
the current time, and the sentinel. -/
def getMailboxPred (address : String) (now : Nat) (m : Mailbox) : Bool :=
  decide (m.address = address ∧ (m.expiresAt > now ∨ m.expiresAt = PERMANENT_MAILBOX_SENTINEL))

/-- The `UPDATE mailboxes SET last_accessed = ? WHERE id = ?` statement of `getMailbox`. -/
def updLast (rid now : Nat) (m : Mailbox) : Mailbox :=
  if m.id = rid then { m with lastAccessed := now } else m

/-- `getMailbox` from `database.ts`: SELECT the live-or-permanent row for the address,
and on a hit refresh its `last_accessed`. Returns the mailbox object the function
builds (with `lastAccessed := now`) and the updated table. -/
def getMailbox (db : Store) (address : String) (now : Nat) : Option Mailbox × Store :=
  match (db : List Mailbox).find? (getMailboxPred address now) with
  | none => (none, db)
  | some result =>
    (some { result with lastAccessed := now },
     (db : List Mailbox).map (updLast result.id now))

/-- The WHERE clause of `convertMailboxToPermanent`:
`address = ? AND address_type IN ('name', 'custom') AND expires_at != ?`. -/
def convPred (address : String) (m : Mailbox) : Bool :=
  decide (m.address = address ∧ (m.addressType = .name ∨ m.addressType = .custom) ∧
    m.expiresAt ≠ PERMANENT_MAILBOX_SENTINEL)

/-- The row transformation of the conversion UPDATE: `SET expires_at = ?` (sentinel)
on matching rows. -/
def convSet (address : String) (m : Mailbox) : Mailbox :=
  if convPred address m then { m with expiresAt := PERMANENT_MAILBOX_SENTINEL } else m

/-- `convertMailboxToPermanent` from `database.ts`: run the UPDATE and report whether
`meta.changes > 0`. -/
def convertMailboxToPermanent (db : Store) (address : String) : Bool × Store :=
  (((db : List Mailbox).filter (convPred address)).length > 0,
   (db : List Mailbox).map (convSet address))

/-- Result shape of `deleteMailbox`: `{ success: boolean; error?: string }` with the
source's literal error strings. -/
structure DeleteMailboxResult where
  success : Bool
  error : Option String
deriving DecidableEq, Repr

/-- `deleteMailbox` from `database.ts`: look the mailbox up (which refreshes
`last_accessed` on a hit), refuse missing and permanent mailboxes, otherwise
`DELETE FROM mailboxes WHERE address = ?`. -/
def deleteMailbox (db : Store) (address : String) (now : Nat) :
    DeleteMailboxResult × Store :=
  match getMailbox db address now with
  | (none, db1) => ({ success := false, error := some "Mailbox not found" }, db1)
  | (some mailbox, db1) =>
    if mailbox.isPermanent then
      ({ success := false, error := some "Cannot delete permanent mailbox" }, db1)
    else
      ({ success := true, error := none },
       (db1 : List Mailbox).filter (fun m => !decide (m.address = address)))

/-- The WHERE clause of the cleanup DELETE:
`expires_at <= ? AND expires_at != ?` (current time, sentinel). -/
def cleanupPred (now : Nat) (m : Mailbox) : Bool :=
  decide (m.expiresAt ≤ now ∧ m.expiresAt ≠ PERMANENT_MAILBOX_SENTINEL)

/-- `cleanupExpiredMailboxes` from `database.ts`, restricted to its effect on the
`mailboxes` table (the trailing `cleanupOrphanedAttachments` touches only the
attachments table). Returns the surviving table and `meta.changes`. -/
def cleanupExpiredMailboxes (db : Store) (now : Nat) : Store × Nat :=
  let remaining := (db : List Mailbox).filter (fun m => !cleanupPred now m)
  (remaining, (db : List Mailbox).length - remaining.length)

/-- Iterated reclamation sweeps at the given sequence of trigger times. -/
def runSweeps (db : Store) (nows : List Nat) : Store :=
  nows.foldl (fun d t => (cleanupExpiredMailboxes d t).1) db

/-- The 26 lowercase letters (`letters` in `generateRandomAddress`). -/
def lettersChars : List Char :=
  ['a', 'b', 'c', 'd', 'e', 'f', 'g', 'h', 'i', 'j', 'k', 'l', 'm',
   'n', 'o', 'p', 'q', 'r', 's', 't', 'u', 'v', 'w', 'x', 'y', 'z']

/-- The 36 lowercase alphanumerics (`alphanumeric` in `generateRandomAddress`). -/
def alphanumericChars : List Char := lettersChars ++ digitChars

/-- Randomness oracle for `generateRandomAddress`: the length draw, the first-letter
draw, and the per-position alphanumeric draws. -/
structure RandOracle where
  lenDraw : Nat
  firstDraw : Nat
  restDraw : Nat → Nat

/-- `generateRandomAddress` from `worker/src/utils.ts`: a string of
`Math.floor(Math.random() * 5) + 8` characters, the first a letter, the rest
alphanumeric. -/
def generateRandomAddress (ro : RandOracle) : String :=
  let length := ro.lenDraw % 5 + 8
  ⟨lettersChars.getD (ro.firstDraw % 26) 'a' ::
    (List.range (length - 1)).map
      (fun i => alphanumericChars.getD (ro.restDraw (i + 1) % 36) 'a')⟩

/-- JSON body of `POST /api/mailboxes`, reduced to the fields the handler reads.
`none` stands for an absent (or, for `isPermanent`, non-boolean) field. -/
structure CreateRequest where
  addressType : Option String
  isPermanent : Option Bool
  address : Option String
deriving DecidableEq, Repr

/-- Error responses of the create handler, one per `return c.json({success:false,...})`
site: unknown address type; permanence requested for a random mailbox; custom type
without an `address` field; address failing validation; address already existing. -/
inductive CreateError
  | invalidAddressType
  | randomCannotBePermanent
  | missingCustomAddress
  | invalidAddress (e : AddressValidationError)
  | addressTaken
deriving DecidableEq, Repr

/-- Outcome of the create handler. -/
inductive CreateOutcome
  | ok (mailbox : Mailbox)
  | err (e : CreateError)
deriving DecidableEq, Repr

/-- The `['name', 'random', 'custom'].includes` validation of the handler, as a parse. -/
def parseAddressType (s : String) : Option AddressType :=
  if s = "name" then some .name
  else if s = "random" then some .random
  else if s = "custom" then some .custom
  else none

/-- `body.addressType || 'random'`: absent and empty-string (falsy) values default to
`'random'`. -/
def requestAddressTypeString (body : CreateRequest) : String :=
  match body.addressType with
  | some s => if s = "" then "random" else s
  | none => "random"

/-- The address-determination `switch` of the create handler: generate for `name`,
demand-and-validate for `custom`, and for `random` use a caller-supplied address when
present (validated and lowercased) or fall back to the generator. -/
def routeAddress (addressType : AddressType) (body : CreateRequest)
    (o : NameGenOracle) (ro : RandOracle) : Sum CreateError String :=
  match addressType with
  | .name => .inr (generateNameAddress o)
  | .custom =>
    match body.address with
    | none => .inl .missingCustomAddress
    | some s =>
      if s = "" then .inl .missingCustomAddress
      else
        let validation := validateCustomAddress s
        if validation.valid then .inr (jsToLower s)
        else .inl (.invalidAddress (validation.error.getD .invalidCharacters))
  | .random =>
    match body.address with
    | none => .inr (generateRandomAddress ro)
    | some s =>
      if s = "" then .inr (generateRandomAddress ro)
      else
        let validation := validateCustomAddress s
        if validation.valid then .inr (jsToLower s)
        else .inl (.invalidAddress (validation.error.getD .invalidCharacters))

/-- The `POST /api/mailboxes` handler of `worker/src/routes.ts`: default and validate
the address type, reject permanence for random mailboxes, fix `expiresInHours = 24`,
determine the address, check uniqueness via `getMailbox`, then `createMailbox`. -/
def createMailboxRoute (db : Store) (body : CreateRequest) (ip : String)
    (now freshId : Nat) (o : NameGenOracle) (ro : RandOracle) : CreateOutcome × Store :=
  match parseAddressType (requestAddressTypeString body) with
  | none => (.err .invalidAddressType, db)
  | some addressType =>
    let isPermanent := match body.isPermanent with | some b => b | none => false
    if isPermanent && addressType == .random then (.err .randomCannotBePermanent, db)
    else
      let expiresInHours := 24
      match routeAddress addressType body o ro with
      | .inl e => (.err e, db)
      | .inr address =>
        match getMailbox db address now with
        | (some _, db1) => (.err .addressTaken, db1)
        | (none, db1) =>
          let created := createMailbox db1
            { address := address, addressType := addressType,
              expiresInHours := expiresInHours, ipAddress := ip,
              isPermanent := isPermanent } now freshId
          (.ok created.1, created.2)

/-- Outcome of the `PATCH /api/mailboxes/:address/convert-to-permanent` handler, one
constructor per response site (404 not found; 403 random; 200 already permanent;
200 converted with the refetched mailbox; 500 conversion reported no change). -/
inductive ConvertOutcome
  | notFound
  | ineligible
  | alreadyPermanent (mailbox : Mailbox)
  | converted (mailbox : Option Mailbox)
  | failed
deriving DecidableEq, Repr

/-- Success test on a convert outcome (`success: true` responses). -/
def ConvertOutcome.isSuccess : ConvertOutcome → Bool
  | .alreadyPermanent _ => true
  | .converted _ => true
  | _ => false

/-- The convert-to-permanent handler of `worker/src/routes.ts`: look the mailbox up,
reject missing (404) and random (403) mailboxes, short-circuit on already-permanent
ones, otherwise run the conversion UPDATE and refetch. -/
def convertToPermanentRoute (db : Store) (address : String) (now : Nat) :
    ConvertOutcome × Store :=
  match getMailbox db address now with
  | (none, db1) => (.notFound, db1)
  | (some mailbox, db1) =>
    if mailbox.addressType = .random then (.ineligible, db1)
    else if mailbox.isPermanent then (.alreadyPermanent mailbox, db1)
    else
      match convertMailboxToPermanent db1 address with
      | (false, db2) => (.failed, db2)
      | (true, db2) =>
        let refetch := getMailbox db2 address now
        (.converted refetch.1, refetch.2)

/-- Erase the mutable `last_accessed` column of one row (for stating that an operation
changes nothing except `last_accessed`). -/
def eraseLastAccessed1 (m : Mailbox) : Mailbox := { m with lastAccessed := 0 }

/-- Erase the `last_accessed` column of a whole table. -/
def eraseLastAccessed (db : Store) : Store := db.map eraseLastAccessed1

/-- The UNIQUE constraint on the `address` column: pairwise distinct addresses. -/
def UniqueAddr (db : Store) : Prop := db.Pairwise (fun x y => x.address ≠ y.address)

/-- The row stored for a given address (lookup ignoring expiry). -/
def storedRow (db : Store) (address : String) : Option Mailbox :=
  db.find? (fun m => decide (m.address = address))

def paramsPermName : CreateMailboxParams :=
  { address := "alicesmith", addressType := .name, expiresInHours := 24,
    ipAddress := "1.2.3.4", isPermanent := true }

def mbPermanent : Mailbox :=
  { id := 1, address := "keepme", addressType := .name, createdAt := 10,
    expiresAt := PERMANENT_MAILBOX_SENTINEL, ipAddress := "ip", lastAccessed := 10 }

def mbExpired : Mailbox :=
  { id := 2, address := "oldbox", addressType := .name, createdAt := 10,
    expiresAt := 50, ipAddress := "ip", lastAccessed := 10 }

def randOracle0 : RandOracle := ⟨0, 0, fun _ => 0⟩

def mbTemp : Mailbox :=
  { id := 4, address := "tmpbox", addressType := .custom, createdAt := 10,
    expiresAt := 1000, ipAddress := "ip", lastAccessed := 10 }

/-- A table state in which the address holds a converted (or born-permanent)
eligible mailbox: a sentinel-expiry row of non-random class. -/
def convertedState (db : Store) (a : String) : Prop :=
  ∃ m1, m1 ∈ db ∧ m1.address = a ∧ m1.addressType ≠ .random ∧
    m1.expiresAt = PERMANENT_MAILBOX_SENTINEL

def mbRandomLive : Mailbox :=
  { id := 3, address := "rnd1", addressType := .random, createdAt := 10,
    expiresAt := 1000, ipAddress := "ip", lastAccessed := 10 }

def mbTempName : Mailbox :=
  { id := 5, address := "bobjones", addressType := .name, createdAt := 10,
    expiresAt := 1000, ipAddress := "ip", lastAccessed := 10 }

def mbNameTaken : Mailbox :=
  { id := 6, address := "jamessmith", addressType := .name, createdAt := 10,
    expiresAt := 1000, ipAddress := "ip", lastAccessed := 10 }

/-- The combined fact needed of a fallback pick: length between 3 and 6 and all
lowercase. -/
def shortNameOk (s : String) : Bool :=
  decide (3 ≤ jsLength s) && decide (jsLength s ≤ 6) && s.data.all isLowerAlpha

theorem data_append (s t : String) : (s ++ t).data = s.data ++ t.data := rfl

theorem jsToLower_data (s : String) : (jsToLower s).data = s.data.map toLowerChar := rfl

theorem getMailbox_eq_of_find_none (db : Store) (a : String) (now : Nat)
    (hf : db.find? (getMailboxPred a now) = none) :
    getMailbox db a now = (none, db) := by
  unfold getMailbox; rw [hf]

theorem getMailbox_eq_of_find_some (db : Store) (a : String) (now : Nat) (r : Mailbox)
    (hf : db.find? (getMailboxPred a now) = some r) :
    getMailbox db a now =
      (some { r with lastAccessed := now }, db.map (updLast r.id now)) := by
  unfold getMailbox; rw [hf]

theorem getMailbox_fst_none (db : Store) (a : String) (now : Nat)
    (h : (getMailbox db a now).1 = none) : getMailbox db a now = (none, db) := by
  cases hf : db.find? (getMailboxPred a now) with
  | none => exact getMailbox_eq_of_find_none db a now hf
  | some r => rw [getMailbox_eq_of_find_some db a now r hf] at h; simp at h

theorem getMailbox_fst_some (db : Store) (a : String) (now : Nat) (m : Mailbox)
    (h : (getMailbox db a now).1 = some m) :
    ∃ r, db.find? (getMailboxPred a now) = some r ∧
      m = { r with lastAccessed := now } ∧
      getMailbox db a now = (some m, db.map (updLast r.id now)) := by
  cases hf : db.find? (getMailboxPred a now) with
  | none => rw [getMailbox_eq_of_find_none db a now hf] at h; simp at h
  | some r =>
    have he := getMailbox_eq_of_find_some db a now r hf
    rw [he] at h
    have hm : m = { r with lastAccessed := now } := by simpa using h.symm
    refine ⟨r, rfl, hm, ?_⟩
    rw [he, hm]

theorem updLast_address (rid now : Nat) (m : Mailbox) :
    (updLast rid now m).address = m.address := by
  unfold updLast; split <;> rfl

theorem updLast_addressType (rid now : Nat) (m : Mailbox) :
    (updLast rid now m).addressType = m.addressType := by
  unfold updLast; split <;> rfl

theorem updLast_expiresAt (rid now : Nat) (m : Mailbox) :
    (updLast rid now m).expiresAt = m.expiresAt := by
  unfold updLast; split <;> rfl

theorem convSet_address (a : String) (m : Mailbox) :
    (convSet a m).address = m.address := by
  unfold convSet; split <;> rfl

theorem convSet_addressType (a : String) (m : Mailbox) :
    (convSet a m).addressType = m.addressType := by
  unfold convSet; split <;> rfl

theorem eraseLast_map_updLast (db : Store) (rid now : Nat) :
    eraseLastAccessed (db.map (updLast rid now)) = eraseLastAccessed db := by
  unfold eraseLastAccessed
  rw [List.map_map]
  refine List.map_congr_left ?_
  intro m _
  show eraseLastAccessed1 (updLast rid now m) = eraseLastAccessed1 m
  unfold updLast eraseLastAccessed1
  split <;> rfl

theorem eraseLast_filter_addr (db : Store) (a : String) :
    eraseLastAccessed (db.filter (fun m => !decide (m.address = a))) =
      (eraseLastAccessed db).filter (fun m => !decide (m.address = a)) := by
  unfold eraseLastAccessed
  induction db with
  | nil => rfl
  | cons h t ih =>
    rw [List.map_cons, List.filter_cons, List.filter_cons]
    have haddr : (eraseLastAccessed1 h).address = h.address := rfl
    rw [haddr]
    split
    · rw [List.map_cons, ih]
    · exact ih

theorem uniqueAddr_map (db : Store) (f : Mailbox → Mailbox)
    (hf : ∀ m, (f m).address = m.address) (hu : UniqueAddr db) :
    UniqueAddr (db.map f) := by
  unfold UniqueAddr at *
  rw [List.pairwise_map]
  exact hu.imp (by intro x y h; rw [hf, hf]; exact h)

theorem uniqueAddr_eq_of_mem (db : Store) (y z : Mailbox) (hu : UniqueAddr db)
    (hy : y ∈ db) (hz : z ∈ db) (h : y.address = z.address) : y = z := by
  induction db with
  | nil => cases hy
  | cons hd tl ih =>
    have hp := List.pairwise_cons.mp hu
    cases hy with
    | head =>
      cases hz with
      | head => rfl
      | tail _ hz' => exact absurd h (hp.1 z hz')
    | tail _ hy' =>
      cases hz with
      | head => exact absurd h.symm (hp.1 y hy')
      | tail _ hz' => exact ih hp.2 hy' hz'

theorem find?_eq_some_of_unique (db : Store) (p : Mailbox → Bool) (a : String)
    (m : Mailbox) (hu : UniqueAddr db) (haddr : ∀ x, p x = true → x.address = a)
    (hm : m ∈ db) (hma : m.address = a) (hpm : p m = true) :
    db.find? p = some m := by
  induction db with
  | nil => cases hm
  | cons hd tl ih =>
    have hp := List.pairwise_cons.mp hu
    cases hm with
    | head => rw [List.find?_cons, hpm]
    | tail _ hm' =>
      rw [List.find?_cons]
      cases hhd : p hd with
      | true =>
        exact absurd (haddr hd hhd ▸ hma.symm ▸ rfl : hd.address = m.address)
          (hp.1 m hm')
      | false => exact ih hp.2 hm'

/-- C1: a creation with `wantsPermanent = true` and class name/custom stores the
sentinel as `expiresAt` (and the derived `isPermanent` is true); with
`wantsPermanent = false` it stores `now + hoursValid` hours in seconds; when
permanence wins, any two `hoursValid` values yield the same sentinel result; and the
created row is exactly the row persisted. -/
theorem C1_create_expiry (db : Store) (params : CreateMailboxParams) (now freshId : Nat) :
    (params.isPermanent = true →
      (params.addressType = .name ∨ params.addressType = .custom) →
      (createMailbox db params now freshId).1.expiresAt = PERMANENT_MAILBOX_SENTINEL ∧
      isPermanentMailbox (createMailbox db params now freshId).1.expiresAt = true) ∧
    (params.isPermanent = false →
      (createMailbox db params now freshId).1.expiresAt =
        now + params.expiresInHours * 60 * 60) ∧
    (∀ h1 h2 : Nat, params.isPermanent = true →
      (params.addressType = .name ∨ params.addressType = .custom) →
      (createMailbox db { params with expiresInHours := h1 } now freshId).1.expiresAt =
        (createMailbox db { params with expiresInHours := h2 } now freshId).1.expiresAt) ∧
    (createMailbox db params now freshId).2 =
      db ++ [(createMailbox db params now freshId).1] := by
  refine ⟨?_, ?_, ?_, rfl⟩
  · rintro hp (ht | ht) <;>
      simp [createMailbox, calculateMailboxExpiry, isPermanentAllowedForAddressType,
        hp, ht, isPermanentMailbox]
  · intro hp
    simp [createMailbox, calculateMailboxExpiry, hp]
  · rintro h1 h2 hp (ht | ht) <;>
      simp [createMailbox, calculateMailboxExpiry, isPermanentAllowedForAddressType,
        hp, ht]

/-- Witness for C1 at concrete inputs. -/
theorem C1_create_expiry_witness :
    (createMailbox [] paramsPermName 100 1).1.expiresAt = PERMANENT_MAILBOX_SENTINEL ∧
    (createMailbox [] { paramsPermName with isPermanent := false } 100 1).1.expiresAt =
      100 + 24 * 60 * 60 ∧
    (createMailbox [] { paramsPermName with expiresInHours := 1 } 100 1).1.expiresAt =
      (createMailbox [] { paramsPermName with expiresInHours := 777 } 100 1).1.expiresAt := by
  refine ⟨((C1_create_expiry [] paramsPermName 100 1).1 rfl (Or.inl rfl)).1, ?_, ?_⟩
  · exact (C1_create_expiry [] { paramsPermName with isPermanent := false } 100 1).2.1 rfl
  · exact (C1_create_expiry [] paramsPermName 100 1).2.2.1 1 777 rfl (Or.inl rfl)

/-- C2: the reclamation sweep never deletes a sentinel-expiry mailbox, over any
sequence of sweep runs; and a single sweep deletes a row of the table if and only if
its `expiresAt` is at or before the current time and is not the sentinel. -/
theorem C2_sweep_permanent_exempt (db : Store) (m : Mailbox) (now : Nat)
    (nows : List Nat) :
    (m.expiresAt = PERMANENT_MAILBOX_SENTINEL → m ∈ db → m ∈ runSweeps db nows) ∧
    (m ∈ db → (m ∉ (cleanupExpiredMailboxes db now).1 ↔
      (m.expiresAt ≤ now ∧ m.expiresAt ≠ PERMANENT_MAILBOX_SENTINEL))) := by
  constructor
  · intro hs
    induction nows generalizing db with
    | nil => intro hm; simpa [runSweeps] using hm
    | cons t ts ih =>
      intro hm
      show m ∈ runSweeps ((cleanupExpiredMailboxes db t).1) ts
      exact ih _ (by simp [cleanupExpiredMailboxes, List.mem_filter, hm, cleanupPred, hs])
  · intro hm
    simp [cleanupExpiredMailboxes, List.mem_filter, hm, cleanupPred]

/-- Witness for C2: a permanent row survives three sweeps while an expired one is
deleted exactly when the sweep reaches its expiry. -/
theorem C2_sweep_permanent_exempt_witness :
    mbPermanent ∈ runSweeps [mbPermanent, mbExpired] [60, 70, 80] ∧
    (mbExpired ∉ (cleanupExpiredMailboxes [mbPermanent, mbExpired] 60).1 ↔
      (mbExpired.expiresAt ≤ 60 ∧ mbExpired.expiresAt ≠ PERMANENT_MAILBOX_SENTINEL)) := by
  constructor
  · exact (C2_sweep_permanent_exempt [mbPermanent, mbExpired] mbPermanent 60 [60, 70, 80]).1
      rfl (by decide)
  · exact (C2_sweep_permanent_exempt [mbPermanent, mbExpired] mbExpired 60 []).2 (by decide)

/-- C3: `Get` finds a mailbox iff a row with the address exists whose `expiresAt` is
strictly in the future or equals the sentinel; consequently a table whose rows for the
address are all elapsed-and-not-sentinel reports not-found, and a sentinel row is
found at every query time. -/
theorem C3_get_liveness (db : Store) (address : String) (now : Nat) :
    ((getMailbox db address now).1.isSome = true ↔
      ∃ m, m ∈ db ∧ m.address = address ∧
        (now < m.expiresAt ∨ m.expiresAt = PERMANENT_MAILBOX_SENTINEL)) ∧
    ((∀ m, m ∈ db → m.address = address →
        m.expiresAt ≤ now ∧ m.expiresAt ≠ PERMANENT_MAILBOX_SENTINEL) →
      (getMailbox db address now).1 = none) ∧
    ((∃ m, m ∈ db ∧ m.address = address ∧ m.expiresAt = PERMANENT_MAILBOX_SENTINEL) →
      (getMailbox db address now).1.isSome = true) := by
  have hbase : (getMailbox db address now).1.isSome =
      (db.find? (getMailboxPred address now)).isSome := by
    unfold getMailbox; cases db.find? (getMailboxPred address now) <;> rfl
  have hiff : (getMailbox db address now).1.isSome = true ↔
      ∃ m, m ∈ db ∧ m.address = address ∧
        (now < m.expiresAt ∨ m.expiresAt = PERMANENT_MAILBOX_SENTINEL) := by
    rw [hbase, List.find?_isSome]
    constructor
    · rintro ⟨x, hx, hp⟩
      have := of_decide_eq_true hp
      exact ⟨x, hx, this.1, this.2⟩
    · rintro ⟨x, hx, h1, h2⟩
      exact ⟨x, hx, decide_eq_true ⟨h1, h2⟩⟩
  refine ⟨hiff, ?_, ?_⟩
  · intro hall
    cases ho : (getMailbox db address now).1 with
    | none => rfl
    | some m =>
      exfalso
      have hs : (getMailbox db address now).1.isSome = true := by rw [ho]; rfl
      obtain ⟨x, hx, hxa, hlive⟩ := hiff.mp hs
      have hall' := hall x hx hxa
      rcases hlive with hlt | hsent
      · omega
      · exact hall'.2 hsent
  · rintro ⟨m, hm, hma, hsent⟩
    exact hiff.mpr ⟨m, hm, hma, Or.inr hsent⟩

/-- C9: the validator applies its rules in order with short-circuiting — length below
3 gives TooShort, then length above 30 gives TooLong, then a character outside the
class gives InvalidCharacters, otherwise valid — and the character class accepts
uppercase letters (no case-folding is applied to the input). -/
theorem C9_validator_order (s : String) :
    (jsLength s < 3 → validateCustomAddress s = ⟨false, some .tooShort⟩) ∧
    (3 ≤ jsLength s → 30 < jsLength s →
      validateCustomAddress s = ⟨false, some .tooLong⟩) ∧
    (3 ≤ jsLength s → jsLength s ≤ 30 →
      (∃ c, c ∈ s.data ∧ isValidAddressChar c = false) →
      validateCustomAddress s = ⟨false, some .invalidCharacters⟩) ∧
    (3 ≤ jsLength s → jsLength s ≤ 30 →
      (∀ c, c ∈ s.data → isValidAddressChar c = true) →
      validateCustomAddress s = ⟨true, none⟩) ∧
    (∀ c : Char, 'A' ≤ c → c ≤ 'Z' → isValidAddressChar c = true) := by
  refine ⟨?_, ?_, ?_, ?_, ?_⟩
  · intro h
    rw [validateCustomAddress, if_pos h]
  · intro h1 h2
    rw [validateCustomAddress, if_neg (by omega), if_pos (by omega)]
  · rintro h1 h2 ⟨c, hc, hbad⟩
    have hvt : validCharsTest s = false := by
      unfold validCharsTest
      have hall : s.data.all isValidAddressChar = false := by
        rcases hb : s.data.all isValidAddressChar with _ | _
        · rfl
        · exact absurd (List.all_eq_true.mp hb c hc) (by simp [hbad])
      simp [hall]
    rw [validateCustomAddress, if_neg (by omega), if_neg (by omega),
      if_pos (by simp [hvt])]
  · intro h1 h2 hall
    have hne : s.data ≠ [] := by
      intro h0
      have h0' : jsLength s = 0 := by unfold jsLength; rw [h0]; rfl
      omega
    have hvt : validCharsTest s = true := by
      unfold validCharsTest
      have h1' : s.data.isEmpty = false := by
        simpa using hne
      have h2' : s.data.all isValidAddressChar = true := List.all_eq_true.mpr hall
      rw [h1', h2']
      rfl
    rw [validateCustomAddress, if_neg (by omega), if_neg (by omega),
      if_neg (by simp [hvt])]
  · intro c h1 h2
    simp [isValidAddressChar, isUpperAlpha, h1, h2]

/-- Witness for C9 at the four rule outcomes and an uppercase character. -/
theorem C9_validator_order_witness :
    validateCustomAddress "ab" = ⟨false, some .tooShort⟩ ∧
    validateCustomAddress "abcdefghijklmnopqrstuvwxyz01234" = ⟨false, some .tooLong⟩ ∧
    validateCustomAddress "ab!" = ⟨false, some .invalidCharacters⟩ ∧
    validateCustomAddress "ABC" = ⟨true, none⟩ ∧
    isValidAddressChar 'Q' = true := by
  refine ⟨(C9_validator_order "ab").1 (by decide),
    (C9_validator_order "abcdefghijklmnopqrstuvwxyz01234").2.1 (by decide) (by decide),
    (C9_validator_order "ab!").2.2.1 (by decide) (by decide)
      ⟨'!', by decide, by decide⟩,
    (C9_validator_order "ABC").2.2.2.1 (by decide) (by decide) (by decide),
    (C9_validator_order "q").2.2.2.2 'Q' (by decide) (by decide)⟩

/-- C6: a creation request resolving to address class random with
`isPermanent = true` is rejected with the random-cannot-be-permanent error before any
row is persisted: the table is returned unchanged. -/
theorem C6_random_cannot_be_permanent (db : Store) (body : CreateRequest) (ip : String)
    (now freshId : Nat) (o : NameGenOracle) (ro : RandOracle)
    (hat : parseAddressType (requestAddressTypeString body) = some .random)
    (hp : body.isPermanent = some true) :
    createMailboxRoute db body ip now freshId o ro =
      (.err .randomCannotBePermanent, db) := by
  unfold createMailboxRoute
  rw [hat, hp]
  rfl

/-- Witness for C6: a body with no address type (defaulting to random) and
`isPermanent = true` is rejected and the empty table stays empty. -/
theorem C6_random_cannot_be_permanent_witness :
    createMailboxRoute [] ⟨none, some true, none⟩ "ip" 100 1 oracleAllZero randOracle0 =
      (.err .randomCannotBePermanent, []) :=
  C6_random_cannot_be_permanent [] ⟨none, some true, none⟩ "ip" 100 1 oracleAllZero
    randOracle0 rfl rfl

theorem deleteMailbox_some (db : Store) (address : String) (now : Nat) (m : Mailbox)
    (db1 : Store) (hg : getMailbox db address now = (some m, db1)) :
    deleteMailbox db address now =
      if m.isPermanent then
        ({ success := false, error := some "Cannot delete permanent mailbox" }, db1)
      else
        ({ success := true, error := none },
         db1.filter (fun x => !decide (x.address = address))) := by
  unfold deleteMailbox
  rw [hg]

/-- Counterexample to C5 as stated: deleting a permanent mailbox does fail, but the
row does not remain unchanged — the permanence check is a successful lookup, which
refreshes `last_accessed`; and a physically present but expired row is answered with
the not-found error while the row stays in the table (it is not removed). -/
theorem C5_delete_counterexample :
    ((deleteMailbox [mbPermanent] "keepme" 100).1.success = false ∧
     (deleteMailbox [mbPermanent] "keepme" 100).2 ≠ [mbPermanent]) ∧
    ((deleteMailbox [mbExpired] "oldbox" 100).1 =
        { success := false, error := some "Mailbox not found" } ∧
     (deleteMailbox [mbExpired] "oldbox" 100).2 = [mbExpired]) := by
  decide

/-- C5 amended: delete answers not-found when no live row for the address exists
(absent, or expired-and-not-permanent); on a permanent row it fails with the
permanent-mailbox error and the table is unchanged except for the `last_accessed`
refresh of the lookup; on a live non-permanent row it succeeds, removes every row
with the address, and leaves the rest unchanged except for `last_accessed`. -/
theorem C5_delete_amended (db : Store) (address : String) (now : Nat) :
    ((getMailbox db address now).1 = none →
      deleteMailbox db address now =
        ({ success := false, error := some "Mailbox not found" }, db)) ∧
    (∀ m, (getMailbox db address now).1 = some m → m.isPermanent = true →
      (deleteMailbox db address now).1 =
        { success := false, error := some "Cannot delete permanent mailbox" } ∧
      eraseLastAccessed (deleteMailbox db address now).2 = eraseLastAccessed db) ∧
    (∀ m, (getMailbox db address now).1 = some m → m.isPermanent = false →
      (deleteMailbox db address now).1 = { success := true, error := none } ∧
      (∀ x, x ∈ (deleteMailbox db address now).2 → x.address ≠ address) ∧
      eraseLastAccessed (deleteMailbox db address now).2 =
        (eraseLastAccessed db).filter (fun x => !decide (x.address = address))) := by
  refine ⟨?_, ?_, ?_⟩
  · intro hnone
    unfold deleteMailbox
    rw [getMailbox_fst_none db address now hnone]
  · intro m hsome hperm
    obtain ⟨r, hf, hm, he⟩ := getMailbox_fst_some db address now m hsome
    rw [deleteMailbox_some db address now m _ he, if_pos hperm]
    exact ⟨rfl, eraseLast_map_updLast db r.id now⟩
  · intro m hsome hperm
    obtain ⟨r, hf, hm, he⟩ := getMailbox_fst_some db address now m hsome
    rw [deleteMailbox_some db address now m _ he,
      if_neg (by rw [hperm]; exact Bool.false_ne_true)]
    refine ⟨rfl, ?_, ?_⟩
    · intro x hx
      have := (List.mem_filter.mp hx).2
      simpa using this
    · rw [eraseLast_filter_addr, eraseLast_map_updLast]

/-- Witness for C5 amended: not-found on an empty table, refusal on a permanent row,
success and removal on a live temporary row. -/
theorem C5_delete_amended_witness :
    deleteMailbox [] "ghost" 100 =
      ({ success := false, error := some "Mailbox not found" }, []) ∧
    (deleteMailbox [mbPermanent] "keepme" 100).1 =
      { success := false, error := some "Cannot delete permanent mailbox" } ∧
    (deleteMailbox [mbTemp] "tmpbox" 100).1 = { success := true, error := none } ∧
    (∀ x, x ∈ (deleteMailbox [mbTemp] "tmpbox" 100).2 → x.address ≠ "tmpbox") := by
  refine ⟨(C5_delete_amended [] "ghost" 100).1 rfl,
    ((C5_delete_amended [mbPermanent] "keepme" 100).2.1
      { mbPermanent with lastAccessed := 100 } (by decide) (by decide)).1,
    ((C5_delete_amended [mbTemp] "tmpbox" 100).2.2
      { mbTemp with lastAccessed := 100 } (by decide) (by decide)).1,
    ((C5_delete_amended [mbTemp] "tmpbox" 100).2.2
      { mbTemp with lastAccessed := 100 } (by decide) (by decide)).2.1⟩

theorem convertRoute_none (db : Store) (a : String) (now : Nat)
    (h : (getMailbox db a now).1 = none) :
    convertToPermanentRoute db a now = (.notFound, db) := by
  unfold convertToPermanentRoute
  rw [getMailbox_fst_none db a now h]

theorem convertRoute_ineligible (db : Store) (a : String) (now : Nat) (m : Mailbox)
    (db1 : Store) (hg : getMailbox db a now = (some m, db1))
    (htype : m.addressType = .random) :
    convertToPermanentRoute db a now = (.ineligible, db1) := by
  simp only [convertToPermanentRoute, hg]
  rw [if_pos htype]

theorem convertRoute_already (db : Store) (a : String) (now : Nat) (m : Mailbox)
    (db1 : Store) (hg : getMailbox db a now = (some m, db1))
    (htype : ¬ m.addressType = .random) (hperm : m.isPermanent = true) :
    convertToPermanentRoute db a now = (.alreadyPermanent m, db1) := by
  simp only [convertToPermanentRoute, hg]
  rw [if_neg htype, if_pos hperm]

theorem convertRoute_converting (db : Store) (a : String) (now : Nat) (m : Mailbox)
    (db1 : Store) (hg : getMailbox db a now = (some m, db1))
    (htype : ¬ m.addressType = .random) (hperm : ¬ m.isPermanent = true)
    (db2 : Store) (hconv : convertMailboxToPermanent db1 a = (true, db2)) :
    convertToPermanentRoute db a now =
      (.converted (getMailbox db2 a now).1, (getMailbox db2 a now).2) := by
  simp only [convertToPermanentRoute, hg]
  rw [if_neg htype, if_neg hperm]
  simp only [hconv]

theorem convert_changes_pos (db1 : Store) (a : String) (x : Mailbox)
    (hx : x ∈ db1) (hpx : convPred a x = true) :
    convertMailboxToPermanent db1 a = (true, db1.map (convSet a)) := by
  unfold convertMailboxToPermanent
  have hpos : 0 < (db1.filter (convPred a)).length :=
    List.length_pos.mpr (List.ne_nil_of_mem (List.mem_filter.mpr ⟨hx, hpx⟩))
  rw [decide_eq_true hpos]

theorem updLast_self (rid now : Nat) (m : Mailbox) (h : m.id = rid) :
    updLast rid now m = { m with lastAccessed := now } := by
  unfold updLast; rw [if_pos h]

theorem convertRoute_on_converted (db : Store) (a : String) (now' : Nat)
    (hu : UniqueAddr db) (hc : convertedState db a) :
    (convertToPermanentRoute db a now').1.isSuccess = true ∧
    (∀ x, x ∈ (convertToPermanentRoute db a now').2 → x.address = a →
      x.expiresAt = PERMANENT_MAILBOX_SENTINEL) ∧
    convertedState (convertToPermanentRoute db a now').2 a ∧
    UniqueAddr (convertToPermanentRoute db a now').2 := by
  obtain ⟨m1, hm1, ha1, ht1, hs1⟩ := hc
  have hpred : getMailboxPred a now' m1 = true := decide_eq_true ⟨ha1, Or.inr hs1⟩
  have hfind : db.find? (getMailboxPred a now') = some m1 :=
    find?_eq_some_of_unique db _ a m1 hu
      (fun x hx => (of_decide_eq_true hx).1) hm1 ha1 hpred
  have hg := getMailbox_eq_of_find_some db a now' m1 hfind
  have hmt : ({ m1 with lastAccessed := now' } : Mailbox).addressType ≠ .random := ht1
  have hmp : ({ m1 with lastAccessed := now' } : Mailbox).isPermanent = true := by
    simp [Mailbox.isPermanent, isPermanentMailbox, hs1]
  have hroute := convertRoute_already db a now' _ _ hg hmt hmp
  have himg : updLast m1.id now' m1 = { m1 with lastAccessed := now' } :=
    updLast_self m1.id now' m1 rfl
  refine ⟨by rw [hroute]; rfl, ?_, ?_, ?_⟩
  · intro x hx hxa
    rw [hroute] at hx
    obtain ⟨y, hy, hxy⟩ := List.mem_map.mp hx
    have hyx : y.address = a := by
      rw [← hxy, updLast_address] at hxa; exact hxa
    have hy1 : y = m1 :=
      uniqueAddr_eq_of_mem db y m1 hu hy hm1 (by rw [hyx, ha1])
    rw [← hxy, updLast_expiresAt, hy1, hs1]
  · rw [hroute]
    refine ⟨{ m1 with lastAccessed := now' }, ?_, ha1, ht1, hs1⟩
    have := List.mem_map_of_mem (updLast m1.id now') hm1
    rwa [himg] at this
  · rw [hroute]
    exact uniqueAddr_map db _ (updLast_address m1.id now') hu

theorem convertRoute_converts (db : Store) (a : String) (now : Nat) (m : Mailbox)
    (hu : UniqueAddr db)
    (hsome : (getMailbox db a now).1 = some m)
    (htype : m.addressType ≠ .random)
    (hperm : m.isPermanent = false) :
    (∃ u, (convertToPermanentRoute db a now).1 = .converted (some u) ∧
      u.expiresAt = PERMANENT_MAILBOX_SENTINEL) ∧
    (∀ x, x ∈ (convertToPermanentRoute db a now).2 → x.address = a →
      x.expiresAt = PERMANENT_MAILBOX_SENTINEL) ∧
    convertedState (convertToPermanentRoute db a now).2 a ∧
    UniqueAddr (convertToPermanentRoute db a now).2 := by
  obtain ⟨r, hf, hm, he⟩ := getMailbox_fst_some db a now m hsome
  have hr_mem : r ∈ db := List.mem_of_find?_eq_some hf
  have hr_pred : r.address = a ∧
      (r.expiresAt > now ∨ r.expiresAt = PERMANENT_MAILBOX_SENTINEL) := by
    have h := List.find?_some hf
    unfold getMailboxPred at h
    exact of_decide_eq_true h
  have hra : r.address = a := hr_pred.1
  have hrt : r.addressType ≠ .random := by
    intro h
    exact htype (by rw [hm]; exact h)
  have hrs : r.expiresAt ≠ PERMANENT_MAILBOX_SENTINEL := by
    intro h
    rw [hm] at hperm
    simp [Mailbox.isPermanent, isPermanentMailbox, h] at hperm
  have himg : updLast r.id now r = { r with lastAccessed := now } :=
    updLast_self r.id now r rfl
  have hmem1 : ({ r with lastAccessed := now } : Mailbox) ∈ db.map (updLast r.id now) := by
    have := List.mem_map_of_mem (updLast r.id now) hr_mem
    rwa [himg] at this
  have hcp : convPred a ({ r with lastAccessed := now } : Mailbox) = true := by
    apply decide_eq_true
    have hteq : ({ r with lastAccessed := now } : Mailbox).addressType = r.addressType := rfl
    refine ⟨hra, ?_, hrs⟩
    rw [hteq]
    cases hat : r.addressType with
    | name => exact Or.inl rfl
    | random => exact absurd hat hrt
    | custom => exact Or.inr rfl
  have hconv := convert_changes_pos (db.map (updLast r.id now)) a _ hmem1 hcp
  have hroute := convertRoute_converting db a now m _ he htype
    (by rw [hperm]; exact Bool.false_ne_true) _ hconv
  set m2 := convSet a ({ r with lastAccessed := now } : Mailbox) with hm2
  set db2 := (db.map (updLast r.id now)).map (convSet a) with hdb2
  have hm2a : m2.address = a := by rw [hm2, convSet_address]; exact hra
  have hm2t : m2.addressType ≠ .random := by rw [hm2, convSet_addressType]; exact hrt
  have hm2s : m2.expiresAt = PERMANENT_MAILBOX_SENTINEL := by
    rw [hm2]; unfold convSet; rw [if_pos hcp]
  have hm2mem : m2 ∈ db2 := List.mem_map_of_mem (convSet a) hmem1
  have hu2 : UniqueAddr db2 :=
    uniqueAddr_map _ _ (convSet_address a)
      (uniqueAddr_map _ _ (updLast_address r.id now) hu)
  have hpred2 : getMailboxPred a now m2 = true := decide_eq_true ⟨hm2a, Or.inr hm2s⟩
  have hfind2 : db2.find? (getMailboxPred a now) = some m2 :=
    find?_eq_some_of_unique db2 _ a m2 hu2
      (fun x hx => (of_decide_eq_true hx).1) hm2mem hm2a hpred2
  have hg2 := getMailbox_eq_of_find_some db2 a now m2 hfind2
  rw [hg2] at hroute
  have himg2 : updLast m2.id now m2 = { m2 with lastAccessed := now } :=
    updLast_self m2.id now m2 rfl
  refine ⟨⟨{ m2 with lastAccessed := now }, by rw [hroute], hm2s⟩, ?_, ?_, ?_⟩
  · intro x hx hxa
    rw [hroute] at hx
    obtain ⟨y, hy, hxy⟩ := List.mem_map.mp hx
    have hyx : y.address = a := by
      rw [← hxy, updLast_address] at hxa; exact hxa
    have hy2 : y = m2 :=
      uniqueAddr_eq_of_mem db2 y m2 hu2 hy hm2mem (by rw [hyx, hm2a])
    rw [← hxy, updLast_expiresAt, hy2, hm2s]
  · rw [hroute]
    refine ⟨{ m2 with lastAccessed := now }, ?_, hm2a, hm2t, hm2s⟩
    have := List.mem_map_of_mem (updLast m2.id now) hm2mem
    rwa [himg2] at this
  · rw [hroute]
    exact uniqueAddr_map _ _ (updLast_address m2.id now) hu2

/-- Counterexample to C4 as stated: the rejection of a random mailbox and the
already-permanent short-circuit both leave the row mutated — the existence check is a
successful lookup, which refreshes `last_accessed` — so "without mutating the row"
fails on the code. -/
theorem C4_convert_counterexample :
    ((convertToPermanentRoute [mbRandomLive] "rnd1" 100).1 = .ineligible ∧
     (convertToPermanentRoute [mbRandomLive] "rnd1" 100).2 ≠ [mbRandomLive]) ∧
    ((convertToPermanentRoute [mbPermanent] "keepme" 100).1.isSuccess = true ∧
     (convertToPermanentRoute [mbPermanent] "keepme" 100).2 ≠ [mbPermanent]) := by
  decide

/-- C4 amended: under the UNIQUE address constraint, ConvertToPermanent is idempotent
and follows the case analysis — no live row (absent or expired-and-reclaimable) gives
NotFound; a random-class row gives the ineligibility error with no field changed other
than the `last_accessed` refresh of the existence lookup; an already-permanent row
succeeds with no change other than that refresh; otherwise `expires_at` is set to the
sentinel and the updated row is returned. Two successive calls on an eligible address
succeed both times and leave the same final `expires_at` (the sentinel). -/
theorem C4_convert_amended (db : Store) (a : String) (now : Nat) (hu : UniqueAddr db) :
    ((getMailbox db a now).1 = none →
      convertToPermanentRoute db a now = (.notFound, db)) ∧
    (∀ m, (getMailbox db a now).1 = some m → m.addressType = .random →
      (convertToPermanentRoute db a now).1 = .ineligible ∧
      eraseLastAccessed (convertToPermanentRoute db a now).2 = eraseLastAccessed db) ∧
    (∀ m, (getMailbox db a now).1 = some m → m.addressType ≠ .random →
      m.isPermanent = true →
      (convertToPermanentRoute db a now).1 = .alreadyPermanent m ∧
      eraseLastAccessed (convertToPermanentRoute db a now).2 = eraseLastAccessed db) ∧
    (∀ m, (getMailbox db a now).1 = some m → m.addressType ≠ .random →
      m.isPermanent = false →
      (∃ u, (convertToPermanentRoute db a now).1 = .converted (some u) ∧
        u.expiresAt = PERMANENT_MAILBOX_SENTINEL) ∧
      (∀ x, x ∈ (convertToPermanentRoute db a now).2 → x.address = a →
        x.expiresAt = PERMANENT_MAILBOX_SENTINEL)) ∧
    (∀ m now', (getMailbox db a now).1 = some m → m.addressType ≠ .random →
      (convertToPermanentRoute db a now).1.isSuccess = true ∧
      (convertToPermanentRoute
        (convertToPermanentRoute db a now).2 a now').1.isSuccess = true ∧
      (∀ x, x ∈ (convertToPermanentRoute db a now).2 → x.address = a →
        x.expiresAt = PERMANENT_MAILBOX_SENTINEL) ∧
      (∀ x, x ∈ (convertToPermanentRoute
          (convertToPermanentRoute db a now).2 a now').2 →
        x.address = a → x.expiresAt = PERMANENT_MAILBOX_SENTINEL)) := by
  refine ⟨convertRoute_none db a now, ?_, ?_, ?_, ?_⟩
  · intro m hsome htype
    obtain ⟨r, hf, hm, he⟩ := getMailbox_fst_some db a now m hsome
    have hroute := convertRoute_ineligible db a now m _ he htype
    rw [hroute]
    exact ⟨rfl, eraseLast_map_updLast db r.id now⟩
  · intro m hsome htype hperm
    obtain ⟨r, hf, hm, he⟩ := getMailbox_fst_some db a now m hsome
    have hroute := convertRoute_already db a now m _ he htype hperm
    rw [hroute]
    exact ⟨rfl, eraseLast_map_updLast db r.id now⟩
  · intro m hsome htype hperm
    have h := convertRoute_converts db a now m hu hsome htype hperm
    exact ⟨h.1, h.2.1⟩
  · intro m now' hsome htype
    cases hperm : m.isPermanent with
    | true =>
      obtain ⟨r, hf, hm, he⟩ := getMailbox_fst_some db a now m hsome
      have hr_mem : r ∈ db := List.mem_of_find?_eq_some hf
      have hr_pred : r.address = a ∧
          (r.expiresAt > now ∨ r.expiresAt = PERMANENT_MAILBOX_SENTINEL) := by
        have h := List.find?_some hf
        unfold getMailboxPred at h
        exact of_decide_eq_true h
      have hrt : r.addressType ≠ .random := by
        intro h
        exact htype (by rw [hm]; exact h)
      have hrs : r.expiresAt = PERMANENT_MAILBOX_SENTINEL := by
        rw [hm] at hperm
        simpa [Mailbox.isPermanent, isPermanentMailbox] using hperm
      have hcs : convertedState db a := ⟨r, hr_mem, hr_pred.1, hrt, hrs⟩
      obtain ⟨hs1, hall1, hcs1, hu1⟩ := convertRoute_on_converted db a now hu hcs
      obtain ⟨hs2, hall2, _, _⟩ :=
        convertRoute_on_converted (convertToPermanentRoute db a now).2 a now' hu1 hcs1
      exact ⟨hs1, hs2, hall1, hall2⟩
    | false =>
      obtain ⟨⟨u, hu', hus⟩, hall1, hcs1, hu1⟩ :=
        convertRoute_converts db a now m hu hsome htype hperm
      obtain ⟨hs2, hall2, _, _⟩ :=
        convertRoute_on_converted (convertToPermanentRoute db a now).2 a now' hu1 hcs1
      exact ⟨by rw [hu']; rfl, hs2, hall1, hall2⟩

/-- Witness for C4 amended: not-found on an empty table, ineligibility for a live
random row, conversion-to-sentinel for a live name row, and success of the repeated
call. -/
theorem C4_convert_amended_witness :
    convertToPermanentRoute [] "ghost" 100 = (.notFound, []) ∧
    (convertToPermanentRoute [mbRandomLive] "rnd1" 100).1 = .ineligible ∧
    (∃ u, (convertToPermanentRoute [mbTempName] "bobjones" 100).1 =
        .converted (some u) ∧ u.expiresAt = PERMANENT_MAILBOX_SENTINEL) ∧
    (convertToPermanentRoute (convertToPermanentRoute [mbTempName] "bobjones" 100).2
      "bobjones" 200).1.isSuccess = true := by
  refine ⟨(C4_convert_amended [] "ghost" 100 (by simp [UniqueAddr])).1 rfl,
    ((C4_convert_amended [mbRandomLive] "rnd1" 100 (by simp [UniqueAddr])).2.1
      { mbRandomLive with lastAccessed := 100 } (by decide) rfl).1,
    ((C4_convert_amended [mbTempName] "bobjones" 100 (by simp [UniqueAddr])).2.2.2.1
      { mbTempName with lastAccessed := 100 } (by decide) (by decide) (by decide)).1,
    ((C4_convert_amended [mbTempName] "bobjones" 100 (by simp [UniqueAddr])).2.2.2.2
      { mbTempName with lastAccessed := 100 } 200 (by decide) (by decide)).2.1⟩

/-- C10: in the random branch (explicit `random` or defaulted), a caller-supplied
address bypasses the random generator entirely — the result does not depend on the
generator oracle — and is validated with the custom-address rules, lowercased, and
stored verbatim; so a stored random-class address only has to satisfy the custom
rules, not the random-generator postconditions. -/
theorem C10_random_with_address (db : Store) (body : CreateRequest) (ip : String)
    (now freshId : Nat) (o : NameGenOracle) (ro : RandOracle) (s : String)
    (hat : parseAddressType (requestAddressTypeString body) = some .random)
    (hp : body.isPermanent ≠ some true)
    (ha : body.address = some s) (hne : s ≠ "")
    (hv : (validateCustomAddress s).valid = true)
    (hfree : (getMailbox db (jsToLower s) now).1 = none) :
    createMailboxRoute db body ip now freshId o ro =
      (.ok { id := freshId, address := jsToLower s, addressType := .random,
             createdAt := now, expiresAt := now + 24 * 60 * 60, ipAddress := ip,
             lastAccessed := now },
       db ++ [{ id := freshId, address := jsToLower s, addressType := .random,
                createdAt := now, expiresAt := now + 24 * 60 * 60, ipAddress := ip,
                lastAccessed := now }]) := by
  have hib : (match body.isPermanent with | some b => b | none => false) = false := by
    cases hb : body.isPermanent with
    | none => rfl
    | some b =>
      cases b with
      | false => rfl
      | true => exact absurd hb hp
  have hra : routeAddress .random body o ro = .inr (jsToLower s) := by
    simp only [routeAddress, ha]
    rw [if_neg hne, if_pos hv]
  have hg := getMailbox_fst_none db (jsToLower s) now hfree
  simp only [createMailboxRoute, hat, hib, hra, hg]
  rfl

/-- Witness for C10: the caller-supplied address `0AB` — too short for the random
generator and starting with a digit — is accepted for a (defaulted) random-class
mailbox, lowercased to `0ab`, and stored verbatim. -/
theorem C10_random_with_address_witness :
    createMailboxRoute [] ⟨none, none, some "0AB"⟩ "ip" 100 7 oracleAllZero randOracle0 =
      (.ok { id := 7, address := "0ab", addressType := .random, createdAt := 100,
             expiresAt := 100 + 24 * 60 * 60, ipAddress := "ip", lastAccessed := 100 },
       [{ id := 7, address := "0ab", addressType := .random, createdAt := 100,
          expiresAt := 100 + 24 * 60 * 60, ipAddress := "ip", lastAccessed := 100 }]) ∧
    jsLength "0ab" < 8 ∧ isLowerAlpha '0' = false := by
  refine ⟨?_, by decide, by decide⟩
  have h := C10_random_with_address [] ⟨none, none, some "0AB"⟩ "ip" 100 7 oracleAllZero
    randOracle0 "0AB" rfl (by decide) rfl (by decide) (by decide) rfl
  have hl : jsToLower "0AB" = "0ab" := by decide
  rw [hl] at h
  exact h

/-- C7 (code behavior at the failing input): when the name-class generator produces an
address that is already taken, the creation handler returns the address-taken error
directly — there is no regenerate-and-retry cycle, no attempt bound, and no
generation-exhausted error anywhere in the handler — so the collision for a
self-generated class is surfaced exactly as for the custom class. -/
theorem C7_no_retry_on_collision :
    (createMailboxRoute [mbNameTaken] ⟨some "name", none, none⟩ "ip" 100 8
        oracleAllZero randOracle0).1 = .err .addressTaken ∧
    generateNameAddress oracleAllZero = "jamessmith" := by
  constructor
  · decide
  · decide

theorem all_mono {l : List Char} {p q : Char → Bool} (h : l.all p = true)
    (himp : ∀ c, p c = true → q c = true) : l.all q = true :=
  List.all_eq_true.mpr (fun c hc => himp c (List.all_eq_true.mp h c hc))

theorem getD_all {α : Type} (l : List α) (p : α → Bool) (i : Nat) (d : α)
    (hall : l.all p = true) (hd : p d = true) : p (l.getD i d) = true := by
  by_cases hlt : i < l.length
  · rw [List.getD_eq_getElem _ _ hlt]
    exact List.all_eq_true.mp hall _ (List.getElem_mem hlt)
  · rw [List.getD_eq_default _ _ (Nat.le_of_not_lt hlt)]
    exact hd

theorem lower_not_upper (c : Char) (h : isLowerAlpha c = true) :
    isUpperAlpha c = false := by
  unfold isLowerAlpha at h
  rw [Bool.and_eq_true] at h
  have h1 : 'a' ≤ c := of_decide_eq_true h.1
  unfold isUpperAlpha
  cases hu : decide (c ≤ 'Z') with
  | false => simp [hu]
  | true =>
    have h3 : c ≤ 'Z' := of_decide_eq_true hu
    exact absurd (le_trans h1 h3) (by decide)

theorem jsToLower_of_no_upper (s : String) (h : ∀ c ∈ s.data, isUpperAlpha c = false) :
    jsToLower s = s := by
  have hmap : ∀ l : List Char, (∀ c ∈ l, isUpperAlpha c = false) →
      l.map toLowerChar = l := by
    intro l hl
    induction l with
    | nil => rfl
    | cons c t ih =>
      rw [List.map_cons, ih (fun x hx => hl x (List.mem_cons_of_mem c hx))]
      have hc := hl c (List.mem_cons_self c t)
      have : toLowerChar c = c := by
        unfold toLowerChar
        rw [hc]
        exact if_neg Bool.false_ne_true
      rw [this]
  show String.mk (s.data.map toLowerChar) = s
  rw [hmap s.data h]

theorem all_lower_id (s : String) (h : s.data.all isLowerAlpha = true) :
    jsToLower s = s :=
  jsToLower_of_no_upper s (fun c hc => lower_not_upper c (List.all_eq_true.mp h c hc))

theorem lower_nameCharOk (c : Char) (h : isLowerAlpha c = true) : nameCharOk c = true := by
  simp [nameCharOk, h]

theorem digit_nameCharOk (c : Char) (h : isDigitChar c = true) : nameCharOk c = true := by
  simp [nameCharOk, h]

theorem generateRandomDigits_digits (coin : Bool) (vals : Nat → Nat) :
    (generateRandomDigits coin vals).data.all isDigitChar = true := by
  show ((List.range (if coin then 2 else 3)).map
    (fun i => digitToChar (vals i))).all isDigitChar = true
  apply List.all_eq_true.mpr
  intro c hc
  obtain ⟨i, _, hci⟩ := List.mem_map.mp hc
  rw [← hci]
  exact getD_all digitChars isDigitChar (vals i % 10) '0' (by decide) (by decide)

theorem jsLength_append (s t : String) :
    jsLength (s ++ t) = jsLength s + jsLength t := by
  unfold jsLength
  rw [data_append, List.map_append, List.sum_append]

theorem formatNameAddress_charset (f l : String) (fmt : AddressFormat) (digits : String)
    (hf : f.data.all isLowerAlpha = true) (hl : l.data.all isLowerAlpha = true)
    (hd : digits.data.all isDigitChar = true) :
    (formatNameAddress f l fmt digits).data.all nameCharOk = true := by
  have hf' : f.data.all nameCharOk = true := all_mono hf lower_nameCharOk
  have hl' : l.data.all nameCharOk = true := all_mono hl lower_nameCharOk
  have hd' : digits.data.all nameCharOk = true := all_mono hd digit_nameCharOk
  have hdot : nameCharOk '.' = true := by decide
  have hund : nameCharOk '_' = true := by decide
  unfold formatNameAddress
  rw [all_lower_id f hf, all_lower_id l hl]
  cases fmt with
  | dot =>
    show ((f ++ "." ++ l).data.all nameCharOk) = true
    rw [data_append, data_append, List.all_append, List.all_append]
    simp [hf', hl', hdot]
  | underscore =>
    show ((f ++ "_" ++ l).data.all nameCharOk) = true
    rw [data_append, data_append, List.all_append, List.all_append]
    simp [hf', hl', hund]
  | plain =>
    show ((f ++ l).data.all nameCharOk) = true
    rw [data_append, List.all_append]
    simp [hf', hl']
  | withDigits =>
    show ((f ++ l ++ digits).data.all nameCharOk) = true
    rw [data_append, data_append, List.all_append, List.all_append]
    simp [hf', hl', hd']

theorem isValidLength_bounds (x : String) (h : isValidLength x = true) :
    6 ≤ jsLength x ∧ jsLength x ≤ 20 := by
  unfold isValidLength at h
  rw [Bool.and_eq_true] at h
  exact ⟨of_decide_eq_true h.1, of_decide_eq_true h.2⟩

theorem poolFirst_lower : NAME_POOL_firstNames.all
    (fun s => s.data.all isLowerAlpha) = true := by decide

theorem poolLast_lower : NAME_POOL_lastNames.all
    (fun s => s.data.all isLowerAlpha) = true := by decide

theorem jsIndexOr_all (l : List String) (p : String → Bool) (idx : Nat) (d : String)
    (hall : l.all p = true) (hd : p d = true) : p (jsIndexOr l idx d) = true := by
  simp only [jsIndexOr]
  cases he : l.isEmpty with
  | true =>
    rw [if_pos rfl, if_pos rfl]
    exact hd
  | false =>
    rw [if_neg Bool.false_ne_true]
    have hlen : 0 < l.length := by
      cases l with
      | nil => simp at he
      | cons a t => simp
    have hlt : idx % l.length < l.length := Nat.mod_lt idx hlen
    rw [List.getD_eq_getElem _ _ hlt]
    have hpmem : p l[idx % l.length] = true :=
      List.all_eq_true.mp hall _ (List.getElem_mem hlt)
    by_cases hv : l[idx % l.length] = ""
    · rw [if_pos hv]; exact hd
    · rw [if_neg hv]; exact hpmem

theorem shortFirst_facts :
    (NAME_POOL_firstNames.filter (fun n => jsLength n ≤ 6)).all shortNameOk = true := by
  decide

theorem shortLast_facts :
    (NAME_POOL_lastNames.filter (fun n => jsLength n ≤ 6)).all shortNameOk = true := by
  decide

theorem shortNameOk_elim (s : String) (h : shortNameOk s = true) :
    (3 ≤ jsLength s ∧ jsLength s ≤ 6) ∧ s.data.all isLowerAlpha = true := by
  unfold shortNameOk at h
  rw [Bool.and_eq_true, Bool.and_eq_true] at h
  exact ⟨⟨of_decide_eq_true h.1.1, of_decide_eq_true h.1.2⟩, h.2⟩

theorem nameGenFallback_ok (o : NameGenOracle) :
    (6 ≤ jsLength (nameGenFallback o) ∧ jsLength (nameGenFallback o) ≤ 20) ∧
    (nameGenFallback o).data.all nameCharOk = true := by
  have hfirst := jsIndexOr_all (NAME_POOL_firstNames.filter (fun n => jsLength n ≤ 6))
    shortNameOk o.fbFirstIdx "john" shortFirst_facts (by decide)
  have hlast := jsIndexOr_all (NAME_POOL_lastNames.filter (fun n => jsLength n ≤ 6))
    shortNameOk o.fbLastIdx "doe" shortLast_facts (by decide)
  obtain ⟨⟨hf1, hf2⟩, hf3⟩ := shortNameOk_elim _ hfirst
  obtain ⟨⟨hl1, hl2⟩, hl3⟩ := shortNameOk_elim _ hlast
  have hshape : nameGenFallback o = formatNameAddress
      (jsIndexOr (NAME_POOL_firstNames.filter (fun n => jsLength n ≤ 6)) o.fbFirstIdx "john")
      (jsIndexOr (NAME_POOL_lastNames.filter (fun n => jsLength n ≤ 6)) o.fbLastIdx "doe")
      .plain "" := rfl
  constructor
  · have hlen : jsLength (nameGenFallback o) =
        jsLength (jsIndexOr (NAME_POOL_firstNames.filter (fun n => jsLength n ≤ 6))
          o.fbFirstIdx "john") +
        jsLength (jsIndexOr (NAME_POOL_lastNames.filter (fun n => jsLength n ≤ 6))
          o.fbLastIdx "doe") := by
      rw [hshape]
      unfold formatNameAddress
      rw [all_lower_id _ hf3, all_lower_id _ hl3]
      exact jsLength_append _ _
    omega
  · rw [hshape]
    exact formatNameAddress_charset _ _ .plain "" hf3 hl3 (by decide)

theorem nameGenAttempt_ok (o : NameGenOracle) (i : Nat) (a : String)
    (h : nameGenAttempt o i = some a) :
    (6 ≤ jsLength a ∧ jsLength a ≤ 20) ∧ a.data.all nameCharOk = true := by
  have hfl : (poolGet NAME_POOL_firstNames (o.firstIdx i)).data.all isLowerAlpha = true :=
    getD_all NAME_POOL_firstNames _ _ "" poolFirst_lower rfl
  have hll : (poolGet NAME_POOL_lastNames (o.lastIdx i)).data.all isLowerAlpha = true :=
    getD_all NAME_POOL_lastNames _ _ "" poolLast_lower rfl
  have hchar : ∀ fmt digits, digits.data.all isDigitChar = true →
      (formatNameAddress (poolGet NAME_POOL_firstNames (o.firstIdx i))
        (poolGet NAME_POOL_lastNames (o.lastIdx i)) fmt digits).data.all nameCharOk = true :=
    fun fmt digits hd => formatNameAddress_charset _ _ fmt digits hfl hll hd
  simp only [nameGenAttempt] at h
  split at h
  · rename_i hvalid
    cases h
    exact ⟨isValidLength_bounds _ hvalid, hchar _ _ (generateRandomDigits_digits _ _)⟩
  · split at h
    · split at h
      · rename_i hvalid
        cases h
        exact ⟨isValidLength_bounds _ hvalid, hchar _ _ (generateRandomDigits_digits _ _)⟩
      · cases h
    · split at h
      · split at h
        · rename_i hvalid
          cases h
          exact ⟨isValidLength_bounds _ hvalid, hchar _ _ (by decide)⟩
        · cases h
      · cases h

theorem generateNameAddressAux_ok (o : NameGenOracle) (fuel i : Nat) :
    (6 ≤ jsLength (generateNameAddressAux o fuel i) ∧
      jsLength (generateNameAddressAux o fuel i) ≤ 20) ∧
    (generateNameAddressAux o fuel i).data.all nameCharOk = true := by
  induction fuel generalizing i with
  | zero => exact nameGenFallback_ok o
  | succ n ih =>
    have hstep : generateNameAddressAux o (n + 1) i =
        (match nameGenAttempt o i with
         | some a => a
         | none => generateNameAddressAux o n (i + 1)) := rfl
    cases hatt : nameGenAttempt o i with
    | none =>
      rw [hstep, hatt]
      exact ih (i + 1)
    | some a =>
      rw [hstep, hatt]
      exact nameGenAttempt_ok o i a hatt

/-- C8: every string the name-class generator can return — across all randomness,
including the post-bound fallback pick from the short pool entries — has length
between 6 and 20 and draws its characters from lowercase letters, digits, dot and
underscore; in particular the fallback itself always passes the length validation. -/
theorem C8_name_generator_postconditions (o : NameGenOracle) :
    (6 ≤ jsLength (generateNameAddress o) ∧ jsLength (generateNameAddress o) ≤ 20) ∧
    (generateNameAddress o).data.all nameCharOk = true ∧
    isValidLength (nameGenFallback o) = true := by
  obtain ⟨hb, hc⟩ := generateNameAddressAux_ok o 50 0
  obtain ⟨⟨hf1, hf2⟩, _⟩ := nameGenFallback_ok o
  refine ⟨hb, hc, ?_⟩
  unfold isValidLength
  rw [Bool.and_eq_true]
  exact ⟨decide_eq_true hf1, decide_eq_true hf2⟩

/-- Witness for C3: the expired-only table answers not-found and a sentinel row is
found long after creation. -/
theorem C3_get_liveness_witness :
    (getMailbox [mbExpired] "oldbox" 100).1 = none ∧
    (getMailbox [mbPermanent] "keepme" 999999999).1.isSome = true := by
  refine ⟨(C3_get_liveness [mbExpired] "oldbox" 100).2.1 (by decide), ?_⟩
  exact (C3_get_liveness [mbPermanent] "keepme" 999999999).2.2
    ⟨mbPermanent, by decide, rfl, rfl⟩
